import Mathlib

/-!
Verification of the medical-symptom RAG repository against its specification.

The development shallowly embeds the repository's Python sources:

* `src/rag/chunker.py`   — word-window chunking of documents (`chunk_text`,
  `create_chunks_from_csv`);
* `src/rag/retriever.py` — nearest-neighbour retrieval over a vector index
  (`MedlineRetriever.retrieve`, `MedlineRetriever.format_context`);
* `src/rag/build_index.py` — index construction and persistence;
* `src/rag/rag_pipeline.py` — the conversation state machine
  (`ConversationManager.process_message`, `RAGPipeline.generate_diagnosis`).

Python strings are Lean `String`s (whose `data` field is the character
sequence), Python ints are `Int`, Python lists are Lean `List`s, `pandas`
missing values (`NaN`) are `Option.none`, and Python calls that can raise are
embedded with `Except`/`Option` results.  The FAISS vector index and the
embedding model are external libraries whose behaviour is modelled from the
specification where noted.
-/

/-- Model of Python `str.split()` (no separator argument) on a character
sequence: splits on runs of whitespace and never produces empty words.
`curr` accumulates the current word in reverse. -/
def pySplitAux : List Char → List Char → List (List Char)
  | [], curr => if curr.isEmpty then [] else [curr.reverse]
  | c :: cs, curr =>
    if c.isWhitespace then
      if curr.isEmpty then pySplitAux cs [] else curr.reverse :: pySplitAux cs []
    else
      pySplitAux cs (c :: curr)

/-- Model of Python `text.split()` from `chunker.py` line 18. -/
def pySplit (s : String) : List String :=
  (pySplitAux s.data []).map String.mk

/-- Resolve one Python slice endpoint for a list of length `n`: negative
indices count from the end (clamped at 0), indices beyond `n` clamp to `n`. -/
def pySliceIdx (n : Nat) (i : Int) : Nat :=
  if i < 0 then (max ((n : Int) + i) 0).toNat else min i.toNat n

/-- Model of the Python slice `l[i:j]`. -/
def pySlice {α : Type} (l : List α) (i j : Int) : List α :=
  let a := pySliceIdx l.length i
  let b := pySliceIdx l.length j
  (l.drop a).take (b - a)

/-- The `while start < len(words)` loop of `chunk_text` (`chunker.py`
lines 24–35), with the mutable `start` (a Python int, possibly negative) and
`chunks` accumulator made explicit.  The loop itself has no termination
guarantee — for `overlap ≥ chunk_size` it runs forever — so it is embedded
with explicit fuel; `none` means the loop did not finish within the fuel. -/
def chunkLoop (words : List String) (chunk_size overlap : Int) :
    Nat → Int → List (List String) → Option (List (List String))
  | 0, _, _ => none
  | fuel + 1, start, chunks =>
    if start < (words.length : Int) then
      let stop := start + chunk_size
      let chunk_words := pySlice words start stop
      let chunks' := chunks ++ [chunk_words]
      let start' := stop - overlap
      if start' ≥ (words.length : Int) then some chunks'
      else chunkLoop words chunk_size overlap fuel start' chunks'
    else
      some chunks

/-- `chunk_text` from `chunker.py`, with each produced chunk kept as its word
list (the loop's `chunk_words` before `' '.join`).  In the short-text branch
the single chunk is the whole text, whose word list is `pySplit text`.
`none` means the loop failed to terminate within `words.length + 1` steps
(which, as proved below, suffices whenever `overlap < chunk_size`). -/
def chunk_text_words (text : String) (chunk_size overlap : Int) :
    Option (List (List String)) :=
  let words := pySplit text
  if (words.length : Int) ≤ chunk_size then some [words]
  else chunkLoop words chunk_size overlap (words.length + 1) 0 []

/-- `chunk_text(text, chunk_size, overlap)` from `chunker.py` lines 6–37:
returns `[text]` when the word count is at most `chunk_size`, otherwise the
space-joined word windows produced by the loop.  `none` models
non-termination of the loop. -/
def chunk_text (text : String) (chunk_size overlap : Int) :
    Option (List String) :=
  let words := pySplit text
  if (words.length : Int) ≤ chunk_size then some [text]
  else
    (chunkLoop words chunk_size overlap (words.length + 1) 0 []).map
      (List.map (String.intercalate " "))

/-- One corpus row of `medline_cleaned.csv` (spec §6): `also_called` and
`summary` cells may be missing (`pandas` `NaN`), modelled as `none`. -/
structure Row where
  id : Int
  title : String
  also_called : Option String
  summary : Option String
  url : String

/-- One emitted chunk record (`chunker.py` lines 66–74). -/
structure ChunkRec where
  chunk_id : Nat
  title : String
  chunk_text : String
  source_id : Int
  url : String
deriving DecidableEq

/-- Lines 53–61 of `chunker.py`: `also_called` passes through
`pd.notna` (a `NaN` becomes `''`) and is then tested for truthiness, but
`summary` is used directly — concatenating a `NaN` summary onto the string
`full_text` raises a `TypeError`, modelled as `Except.error`. -/
def row_full_text (row : Row) : Except String String :=
  let also_called := match row.also_called with
    | some v => v
    | none => ""
  let t1 := row.title ++ ". "
  let t2 := if also_called ≠ "" then t1 ++ ("Also known as: " ++ also_called ++ ". ") else t1
  match row.summary with
  | some s => Except.ok (t2 ++ s)
  | none => Except.error "TypeError: can only concatenate str (not float) to str"

/-- The inner `for chunk in chunks` loop of `create_chunks_from_csv`
(lines 66–74): one record per chunk, incrementing the global `chunk_id`. -/
def emit_chunks (title : String) (source_id : Int) (url : String) :
    List String → Nat → List ChunkRec
  | [], _ => []
  | c :: cs, cid =>
    { chunk_id := cid, title := title, chunk_text := c,
      source_id := source_id, url := url } :: emit_chunks title source_id url cs (cid + 1)

/-- The row loop of `create_chunks_from_csv` (lines 52–74), threading the
global `chunk_id` counter across rows.  Chunking always uses
`chunk_size=400, overlap=50` as in line 64; the `none` branch of
`chunk_text` is unreachable for these arguments. -/
def create_chunks_go : List Row → Nat → Except String (List ChunkRec)
  | [], _ => Except.ok []
  | row :: rest, cid =>
    match row_full_text row with
    | Except.error e => Except.error e
    | Except.ok full_text =>
      match chunk_text full_text 400 50 with
      | none => Except.error "chunk_text did not terminate"
      | some chunks =>
        match create_chunks_go rest (cid + chunks.length) with
        | Except.error e => Except.error e
        | Except.ok more =>
          Except.ok (emit_chunks row.title row.id row.url chunks cid ++ more)

/-- `create_chunks_from_csv` from `chunker.py` lines 40–80 (the CSV already
parsed into `Row`s): builds the chunk table with the dense `chunk_id`
counter starting at 0. -/
def create_chunks_from_csv (rows : List Row) : Except String (List ChunkRec) :=
  create_chunks_go rows 0

/-! ## Vector index and retriever (`build_index.py`, `retriever.py`)

The vector index itself is the external FAISS library (`faiss.IndexFlatL2`),
not code of this repository; only its construction, persistence and search
calls appear in `src/`.  Following the specification (§4.3 VectorIndex), it
is modelled as an exact L2 index over integer-component vectors: `search`
returns the `min(k, indexSize)` closest vectors as `(distance, ordinal)`
pairs sorted ascending by distance with ties broken by insertion order, and
requesting `k ≤ 0` fails with an invalid-argument condition. -/

/-- Squared Euclidean (L2) distance between two vectors, the metric of
`faiss.IndexFlatL2` (`build_index.py` line 46). -/
def dist2 (q v : List Int) : Int :=
  ((q.zip v).map (fun p => (p.1 - p.2) * (p.1 - p.2))).sum

/-- Modelled from the spec: the FAISS flat L2 index built by
`build_faiss_index` (`build_index.py` lines 44–51) — a fixed dimension `d`
and the stored vectors in insertion order.  FAISS itself is an external
library absent from `src/`. -/
structure IndexFlatL2 where
  d : Nat
  xb : List (List Int)
deriving DecidableEq

/-- Stable insertion of a `(distance, ordinal)` pair into a list sorted
ascending by distance with ties broken by ordinal position. -/
def insertPair (a : Int × Nat) : List (Int × Nat) → List (Int × Nat)
  | [] => [a]
  | b :: bs =>
    if a.1 < b.1 ∨ (a.1 = b.1 ∧ a.2 ≤ b.2) then a :: b :: bs
    else b :: insertPair a bs

/-- Sort `(distance, ordinal)` pairs ascending by distance, ties broken by
ordinal position (insertion order). -/
def sortPairs : List (Int × Nat) → List (Int × Nat)
  | [] => []
  | a :: as => insertPair a (sortPairs as)

/-- Modelled from the spec (§4.3): `index.search(q, k)` returns the
`min(k, indexSize)` nearest stored vectors as `(squared-L2-distance,
ordinal position)` pairs, sorted ascending by distance with ties broken by
insertion order, and fails with an invalid-argument condition for `k ≤ 0`. -/
def IndexFlatL2.search (idx : IndexFlatL2) (q : List Int) (k : Int) :
    Except String (List (Int × Nat)) :=
  if k ≤ 0 then Except.error "InvalidArgumentError: topK must be positive"
  else
    let pairs := idx.xb.enum.map (fun p => (dist2 q p.2, p.1))
    Except.ok ((sortPairs pairs).take (min k.toNat idx.xb.length))

/-- Modelled from the spec: `faiss.write_index` (`build_index.py` line 61)
serialises the flat index to durable storage; a flat index is determined by
its dimension, its vector count and the flattened vector data, so the byte
stream is modelled as `[d, count] ++ flattened data`. -/
def write_index (idx : IndexFlatL2) : List Int :=
  (idx.d : Int) :: (idx.xb.length : Int) :: idx.xb.flatten

/-- Split a flat data block back into `n` vectors of dimension `d`. -/
def unflatten : Nat → Nat → List Int → List (List Int)
  | 0, _, _ => []
  | n + 1, d, l => l.take d :: unflatten n d (l.drop d)

/-- Modelled from the spec: `faiss.read_index` (`retriever.py` line 19)
deserialises a saved index; malformed input fails. -/
def read_index (data : List Int) : Option IndexFlatL2 :=
  match data with
  | d :: n :: rest =>
    if 0 ≤ d ∧ 0 ≤ n ∧ rest.length = n.toNat * d.toNat then
      some ⟨d.toNat, unflatten n.toNat d.toNat rest⟩
    else none
  | _ => none

/-- One retrieval result dictionary (`retriever.py` lines 55–62). -/
structure RetrievalResult where
  rank : Nat
  score : Int
  title : String
  text : String
  url : String
  chunk_id : Nat
deriving DecidableEq

/-- The loaded retriever state (`MedlineRetriever.__init__`,
`retriever.py` lines 13–29): the FAISS index and the chunk-metadata table,
loaded together from the store.  The sentence-transformer embedding model is
external; queries are therefore taken as already-embedded vectors. -/
structure MedlineRetriever where
  index : IndexFlatL2
  chunks_df : List ChunkRec

/-- Fallback record for out-of-range metadata lookups (unreachable when the
index and metadata are aligned). -/
def emptyChunkRec : ChunkRec :=
  { chunk_id := 0, title := "", chunk_text := "", source_id := 0, url := "" }

/-- `MedlineRetriever.retrieve` (`retriever.py` lines 31–64): embed the
query (external, so the query vector `qvec` is the input), search the index,
and map each returned `(distance, ordinal)` pair to a result dictionary with
1-based rank, taking the chunk at that ordinal row of the metadata table. -/
def MedlineRetriever.retrieve (r : MedlineRetriever) (qvec : List Int)
    (top_k : Int) : Except String (List RetrievalResult) :=
  (r.index.search qvec top_k).map fun pairs =>
    pairs.enum.map fun ip =>
      let chunk_info := r.chunks_df.getD ip.2.2 emptyChunkRec
      { rank := ip.1 + 1, score := ip.2.1, title := chunk_info.title,
        text := chunk_info.chunk_text, url := chunk_info.url,
        chunk_id := chunk_info.chunk_id }

/-- `MedlineRetriever.format_context` (`retriever.py` lines 66–73): one
`"[Source: {title}]\n{text}\n"` block per result, joined by `"\n---\n"`. -/
def format_context (results : List RetrievalResult) : String :=
  String.intercalate "\n---\n"
    (results.map fun result =>
      "[Source: " ++ result.title ++ "]\n" ++ result.text ++ "\n")

/-- Written from the spec's words (§4.4, for comparison with
`format_context`): "concatenates, in rank order, blocks of the form
`[Source: {title}]\n{text}\n`, joined by a separator line", one block per
result with no deduplication of repeated titles. -/
def formatContextSpec : List RetrievalResult → String
  | [] => ""
  | [result] => "[Source: " ++ result.title ++ "]\n" ++ result.text ++ "\n"
  | result :: rest =>
    "[Source: " ++ result.title ++ "]\n" ++ result.text ++ "\n" ++ "\n---\n" ++
      formatContextSpec rest

/-! ## Conversation pipeline (`rag_pipeline.py`, `prompts.py`)

The OpenAI chat-completion call and the sentence-transformer encoder are
external collaborators; they enter the embedding as opaque function fields
of `RAGPipeline`.  To settle the temporal claims about how often they are
invoked, every embedded operation also returns the list of external calls it
performed, in order. -/

/-- One `{role, content}` message of the conversation history (spec §3). -/
structure Message where
  role : String
  content : String
deriving DecidableEq

/-- Model of Python `str.capitalize()`: first character uppercased, the rest
lowercased. -/
def pyCapitalize (s : String) : String :=
  match s.data with
  | [] => ""
  | c :: cs => String.mk (c.toUpper :: cs.map Char.toLower)

/-- Model of Python `str.strip()`: remove leading and trailing whitespace. -/
def pyStrip (s : String) : String :=
  String.mk (((s.data.dropWhile Char.isWhitespace).reverse.dropWhile
    Char.isWhitespace).reverse)

/-- `DIAGNOSIS_SYSTEM_PROMPT` from `prompts.py`. -/
def DIAGNOSIS_SYSTEM_PROMPT : String :=
  "You are a knowledgeable medical AI assistant. Based on the patient's symptoms and medical reference information, provide a comprehensive health assessment.\n\nCRITICAL REQUIREMENTS:\n1. Ground your response in the provided medical references\n2. Include citations to the source materials\n3. Provide a structured response with all required sections\n4. Be empathetic but accurate\n5. Include appropriate disclaimers about seeking professional care\n\nOUTPUT STRUCTURE (must include all sections):\n1. **Likely Condition**: What the patient might be experiencing and why\n2. **30/60/90-Day Outlook**: Expected progression over time\n3. **Lifestyle Recommendations**: Self-care and home management tips\n4. **Red Flags & Next Steps**: Warning signs requiring immediate medical attention\n5. **Citations**: References to source materials used"

/-- The fixed instruction text appended after the retrieved context in
`create_diagnosis_prompt` (`prompts.py`). -/
def DIAGNOSIS_PROMPT_TAIL : String :=
  "\n\nBased on the patient's symptoms described in the conversation and the medical reference information provided above, generate a comprehensive health assessment.\n\nFormat your response with these sections:\n\n## Likely Condition\n[Explain what the patient might be experiencing, linking their symptoms to the condition. Cite sources.]\n\n## Expected Progression (30/60/90 Days)\n- **30 days**: [What to expect in the first month]\n- **60 days**: [What to expect after two months]\n- **90 days**: [Long-term outlook]\n\n## Lifestyle Recommendations\n[Provide practical self-care advice, home remedies, and lifestyle modifications]\n\n## Red Flags & Next Steps\n[List warning signs that require immediate medical attention and recommended actions]\n\n## Important Disclaimer\nThis AI assessment is for informational purposes only and is not a substitute for professional medical advice. Please consult a healthcare provider for proper diagnosis and treatment.\n\nRemember to cite the sources (e.g., \"According to information about [Condition]...\") and maintain a caring, professional tone."

/-- `create_diagnosis_prompt` from `prompts.py`: the system prompt, the
capitalised conversation transcript, the retrieved context, and the fixed
instruction tail. -/
def create_diagnosis_prompt (conversation_history : List Message)
    (retrieved_context : String) : String :=
  let history_text := String.intercalate "\n"
    (conversation_history.map fun msg =>
      pyCapitalize msg.role ++ ": " ++ msg.content)
  DIAGNOSIS_SYSTEM_PROMPT ++ "\n\nPATIENT CONVERSATION:\n" ++ history_text ++
    "\n\nMEDICAL REFERENCE INFORMATION:\n" ++ retrieved_context ++
    DIAGNOSIS_PROMPT_TAIL

/-- An invocation of one of the two external services, recorded in call
order by the embedded pipeline operations. -/
inductive ExtCall where
  | retrieval
  | generation
deriving DecidableEq

/-- One source-citation dictionary (`rag_pipeline.py` lines 82–89). -/
structure SourceCite where
  title : String
  url : String
  relevance_score : Int
deriving DecidableEq

/-- The return dictionary of `generate_diagnosis`
(`rag_pipeline.py` lines 91–94). -/
structure DiagnosisResult where
  diagnosis : String
  sources : List SourceCite
deriving DecidableEq

/-- `RAGPipeline` (`rag_pipeline.py` lines 15–36): the loaded retriever plus
the two external collaborators — the sentence-transformer encoder (inside
`MedlineRetriever.retrieve` in the source, factored out here because queries
enter the index as vectors) and the OpenAI chat completion, which maps the
assembled prompt to the model's reply content. -/
structure RAGPipeline where
  retriever : MedlineRetriever
  encode : String → List Int
  chat_completion : String → String

/-- `RAGPipeline.generate_diagnosis` (`rag_pipeline.py` lines 38–94):
retrieve with `top_k=3`, format the context, build the diagnosis prompt over
a one-message history, call the chat model, strip the reply, and pair the
diagnosis with the per-result source citations.  Also returns the external
calls performed. -/
def RAGPipeline.generate_diagnosis (p : RAGPipeline) (user_symptoms : String) :
    Except String DiagnosisResult × List ExtCall :=
  match p.retriever.retrieve (p.encode user_symptoms) 3 with
  | Except.error e => (Except.error e, [ExtCall.retrieval])
  | Except.ok results =>
    let context := format_context results
    let conversation_history : List Message :=
      [{ role := "user", content := user_symptoms }]
    let diagnosis_prompt := create_diagnosis_prompt conversation_history context
    let diagnosis_text := pyStrip (p.chat_completion diagnosis_prompt)
    (Except.ok
      { diagnosis := diagnosis_text,
        sources := results.map fun result =>
          { title := result.title, url := result.url,
            relevance_score := result.score } },
     [ExtCall.retrieval, ExtCall.generation])

/-- `ConversationManager` state (`rag_pipeline.py` lines 100–103): the
message history and the stage string. -/
structure ConversationManager where
  conversation_history : List Message
  stage : String
deriving DecidableEq

/-- A fresh session (`ConversationManager.__init__`): empty history, stage
`"initial"` (the spec's `collecting` stage). -/
def ConversationManager.new : ConversationManager :=
  { conversation_history := [], stage := "initial" }

/-- `add_user_message` (`rag_pipeline.py` lines 105–110). -/
def ConversationManager.add_user_message (m : ConversationManager)
    (message : String) : ConversationManager :=
  { m with conversation_history :=
      m.conversation_history ++ [{ role := "user", content := message }] }

/-- `add_assistant_message` (`rag_pipeline.py` lines 112–117). -/
def ConversationManager.add_assistant_message (m : ConversationManager)
    (message : String) : ConversationManager :=
  { m with conversation_history :=
      m.conversation_history ++ [{ role := "assistant", content := message }] }

/-- The value returned by `process_message`: a diagnosis with sources, or
the fixed closing notice. -/
inductive PMResponse where
  | diagnosis (content : String) (sources : List SourceCite)
  | complete (content : String)
deriving DecidableEq

/-- The fixed closing notice returned for any message after the diagnosis
(`rag_pipeline.py` line 145). -/
def closingNotice : String :=
  "Thank you for using the symptom checker. If you have new symptoms, please start a new session."

/-- `ConversationManager.process_message` (`rag_pipeline.py` lines 119–146):
append the user message; in stage `"initial"` set stage `"diagnosis"`, run
`generate_diagnosis`, append the assistant reply, set stage `"complete"` and
return the diagnosis; in stage `"complete"` return the closing notice; any
other stage falls through (Python implicitly returns `None`).  An exception
from `generate_diagnosis` propagates, leaving the state as mutated so far.
The third component lists the external calls performed. -/
def ConversationManager.process_message (p : RAGPipeline)
    (m : ConversationManager) (user_input : String) :
    ConversationManager × Except String (Option PMResponse) × List ExtCall :=
  let m1 := m.add_user_message user_input
  if m1.stage = "initial" then
    let m2 := { m1 with stage := "diagnosis" }
    match p.generate_diagnosis user_input with
    | (Except.error e, calls) => (m2, Except.error e, calls)
    | (Except.ok result, calls) =>
      let m3 := m2.add_assistant_message result.diagnosis
      let m4 := { m3 with stage := "complete" }
      (m4, Except.ok (some (PMResponse.diagnosis result.diagnosis
        result.sources)), calls)
  else if m1.stage = "complete" then
    (m1, Except.ok (some (PMResponse.complete closingNotice)), [])
  else
    (m1, Except.ok none, [])

/-! ## Proof-side helper definitions -/

/-- The word windows produced by the chunking loop when `overlap <
chunk_size`, as a structurally terminating function of the window start:
the window of `chunk_size` words at `start`, then (when another step stays
inside the word list) the windows from `start + (chunk_size - overlap)`.
Proved below to agree with `chunkLoop`. -/
def windows (words : List String) (cs ov : Nat) (start : Nat) :
    List (List String) :=
  let w := (words.drop start).take cs
  let s' := start + (cs - ov)
  if _h : ov < cs ∧ s' < words.length then
    w :: windows words cs ov s'
  else
    [w]
termination_by words.length - start
decreasing_by omega

/-- A tiny two-chunk metadata table used by witnesses. -/
def sampleChunks : List ChunkRec :=
  [{ chunk_id := 0, title := "Fever", chunk_text := "Fever. High temperature.",
     source_id := 1, url := "u0" },
   { chunk_id := 1, title := "Cough", chunk_text := "Cough. Dry or wet.",
     source_id := 2, url := "u1" }]

/-- A tiny two-vector index aligned with `sampleChunks`. -/
def sampleIndex : IndexFlatL2 :=
  { d := 2, xb := [[0, 1], [3, 4]] }

/-- A loaded retriever over the sample store. -/
def sampleRetriever : MedlineRetriever :=
  { index := sampleIndex, chunks_df := sampleChunks }

/-- A pipeline over the sample store with trivial external collaborators. -/
def samplePipeline : RAGPipeline :=
  { retriever := sampleRetriever,
    encode := fun _ => [0, 0],
    chat_completion := fun _ => "rest and fluids" }

/-- The session state after `samplePipeline` has answered one message
(`"hi"`), used by witnesses. -/
def sampleCompleteManager : ConversationManager :=
  { conversation_history := [{ role := "user", content := "hi" },
      { role := "assistant", content := "rest and fluids" }],
    stage := "complete" }

/-- The source citations produced by `samplePipeline` for any query. -/
def sampleSources : List SourceCite :=
  [{ title := "Fever", url := "u0", relevance_score := 1 },
   { title := "Cough", url := "u1", relevance_score := 25 }]

/-- A corpus row with both optional fields present. -/
def sampleRow : Row :=
  { id := 7, title := "Common Cold", also_called := none,
    summary := some "A viral infection of the nose and throat.", url := "uc" }

/-- A tiny two-row corpus used by witnesses. -/
def sampleRows : List Row :=
  [{ id := 1, title := "Fever", also_called := none,
     summary := some "high temperature", url := "u0" },
   { id := 2, title := "Cough", also_called := some "tussis",
     summary := some "dry or wet", url := "u1" }]

/-- The chunk table produced from `sampleRows`. -/
def sampleOut : List ChunkRec :=
  [{ chunk_id := 0, title := "Fever", chunk_text := "Fever. high temperature",
     source_id := 1, url := "u0" },
   { chunk_id := 1, title := "Cough",
     chunk_text := "Cough. Also known as: tussis. dry or wet",
     source_id := 2, url := "u1" }]

/-! ## Lemmas about the chunking loop -/

theorem windows_def (words : List String) (cs ov start : Nat) :
    windows words cs ov start =
      if ov < cs ∧ start + (cs - ov) < words.length then
        ((words.drop start).take cs) :: windows words cs ov (start + (cs - ov))
      else [(words.drop start).take cs] := by
  conv_lhs => rw [windows.eq_def]
  simp only [dite_eq_ite]

theorem pySlice_natCast {α : Type} (l : List α) (a b : Nat) :
    pySlice l (a : Int) (b : Int) = (l.drop a).take (b - a) := by
  unfold pySlice pySliceIdx
  rw [if_neg (by omega), if_neg (by omega)]
  simp only [Int.toNat_natCast]
  rcases le_or_lt l.length a with h | h
  · rw [min_eq_right h, List.drop_length, List.drop_eq_nil_of_le h]
    simp
  · rw [min_eq_left h.le]
    rcases le_or_lt b l.length with hb | hb
    · rw [min_eq_left hb]
    · rw [min_eq_right hb.le]
      rw [List.take_of_length_le (by simp), List.take_of_length_le (by simp; omega)]

theorem chunkLoop_eq_windows (words : List String) (cs ov : Nat)
    (hov : ov < cs) :
    ∀ (fuel start : Nat) (acc : List (List String)),
      start < words.length → words.length - start ≤ fuel →
      chunkLoop words (cs : Int) (ov : Int) fuel (start : Int) acc =
        some (acc ++ windows words cs ov start) := by
  intro fuel
  induction fuel with
  | zero => intro start acc h1 h2; omega
  | succ f ih =>
    intro start acc h1 h2
    have hcs : (start : Int) + (cs : Int) = ((start + cs : Nat) : Int) := by
      push_cast; ring
    have hstep : ((start + cs : Nat) : Int) - (ov : Int) =
        ((start + (cs - ov) : Nat) : Int) := by push_cast; omega
    simp only [chunkLoop]
    rw [if_pos (by exact_mod_cast h1)]
    rw [hcs, pySlice_natCast]
    have hsub : start + cs - start = cs := by omega
    rw [hsub, hstep]
    rcases le_or_lt words.length (start + (cs - ov)) with hdone | hmore
    · rw [if_pos (by exact_mod_cast hdone)]
      rw [windows_def, if_neg (by omega)]
    · rw [if_neg (by push_cast; omega)]
      rw [ih (start + (cs - ov)) (acc ++ [(words.drop start).take cs])
        hmore (by omega)]
      conv_rhs => rw [windows_def]
      rw [if_pos ⟨hov, hmore⟩]
      simp

theorem windows_cons (words : List String) (cs ov start : Nat) :
    ∃ t, windows words cs ov start = ((words.drop start).take cs) :: t := by
  rw [windows_def]
  split
  · exact ⟨_, rfl⟩
  · exact ⟨_, rfl⟩

theorem chunk_text_words_eq_windows (text : String) (cs ov : Nat)
    (hov : ov < cs) (hn : cs < (pySplit text).length) :
    chunk_text_words text (cs : Int) (ov : Int) =
      some (windows (pySplit text) cs ov 0) ∧
    chunk_text text (cs : Int) (ov : Int) =
      some ((windows (pySplit text) cs ov 0).map (String.intercalate " ")) := by
  have hloop := chunkLoop_eq_windows (pySplit text) cs ov hov
    ((pySplit text).length + 1) 0 [] (by omega) (by omega)
  have h0 : ((0 : Nat) : Int) = (0 : Int) := rfl
  rw [h0] at hloop
  constructor
  · unfold chunk_text_words
    rw [if_neg (by omega), hloop]
    simp
  · unfold chunk_text
    rw [if_neg (by omega), hloop]
    simp

theorem windows_flatten_drop (words : List String) (cs ov : Nat)
    (hov : ov < cs) :
    ∀ start, ((windows words cs ov start).map (List.drop ov)).flatten =
      words.drop (start + ov) := by
  intro start
  induction start using windows.induct words cs ov with
  | case1 x s' hs ih =>
    have h : ov < cs ∧ x + (cs - ov) < words.length := hs
    have ih' : ((windows words cs ov (x + (cs - ov))).map
        (List.drop ov)).flatten = words.drop (x + (cs - ov) + ov) := ih
    rw [windows_def, if_pos h]
    simp only [List.map_cons, List.flatten_cons]
    rw [ih']
    have e1 : List.drop ov ((words.drop x).take cs)
        = ((words.drop x).drop ov).take (cs - ov) := List.drop_take _ _ _
    have e2 : (words.drop x).drop ov = words.drop (x + ov) := List.drop_drop _ _ _
    have e3 : words.drop (x + (cs - ov) + ov)
        = (words.drop (x + ov)).drop (cs - ov) := by
      rw [List.drop_drop]
      congr 1
      omega
    rw [e1, e2, e3]
    exact List.take_append_drop _ _
  | case2 x s' hs =>
    have h : ¬ (ov < cs ∧ x + (cs - ov) < words.length) := hs
    rw [windows_def, if_neg h]
    simp only [List.map_cons, List.map_nil, List.flatten_cons,
      List.flatten_nil, List.append_nil]
    rw [List.drop_take, List.drop_drop]
    exact List.take_of_length_le (by simp; omega)

theorem windows_reconstruct (words : List String) (cs ov : Nat)
    (hov : ov < cs) :
    ∃ t, windows words cs ov 0 = (words.take cs) :: t ∧
      words.take cs ++ (t.map (List.drop ov)).flatten = words := by
  obtain ⟨t, ht⟩ := windows_cons words cs ov 0
  rw [List.drop_zero] at ht
  refine ⟨t, ht, ?_⟩
  have hfl := windows_flatten_drop words cs ov hov 0
  rw [ht] at hfl
  simp only [List.map_cons, List.flatten_cons, List.drop_zero, zero_add] at hfl
  conv_lhs => rw [← List.take_append_drop ov (words.take cs)]
  rw [List.append_assoc, List.take_take, min_eq_left hov.le, hfl]
  exact List.take_append_drop _ _

theorem windows_chain (words : List String) (cs ov : Nat) (hov : ov < cs) :
    ∀ start, List.Chain'
      (fun a b => a.drop (a.length - min ov b.length) = b.take (min ov b.length))
      (windows words cs ov start) := by
  intro start
  induction start using windows.induct words cs ov with
  | case2 x s' hs =>
    have h : ¬ (ov < cs ∧ x + (cs - ov) < words.length) := hs
    rw [windows_def, if_neg h]
    exact List.chain'_singleton _
  | case1 x s' hs ih =>
    have h : ov < cs ∧ x + (cs - ov) < words.length := hs
    have ih' : List.Chain'
        (fun a b => a.drop (a.length - min ov b.length) = b.take (min ov b.length))
        (windows words cs ov (x + (cs - ov))) := ih
    rw [windows_def, if_pos h]
    obtain ⟨t, ht⟩ := windows_cons words cs ov (x + (cs - ov))
    rw [ht]
    rw [ht] at ih'
    rw [List.chain'_cons]
    refine ⟨?_, ih'⟩
    have hs' : x + (cs - ov) < words.length := h.2
    have hkey : ((words.drop x).take cs).length -
        min ov ((words.drop (x + (cs - ov))).take cs).length = cs - ov := by
      simp only [List.length_take, List.length_drop]
      omega
    rw [hkey, List.drop_take, List.drop_drop]
    have h2 : cs - (cs - ov) = ov := by omega
    rw [h2]
    rw [List.take_take]
    rcases le_or_lt ov (words.length - (x + (cs - ov))) with hcase | hcase
    · have hm : min ov ((words.drop (x + (cs - ov))).take cs).length = ov := by
        simp only [List.length_take, List.length_drop]
        omega
      rw [hm, min_eq_left hov.le]
    · have hm : min ov ((words.drop (x + (cs - ov))).take cs).length =
          words.length - (x + (cs - ov)) := by
        simp only [List.length_take, List.length_drop]
        omega
      rw [hm, min_eq_left (by omega)]
      rw [List.take_of_length_le (by simp; omega), List.take_of_length_le (by simp)]

theorem chunk_text_total (text : String) (cs ov : Nat) (hov : ov < cs) :
    ∃ l, chunk_text text (cs : Int) (ov : Int) = some l := by
  rcases le_or_lt (pySplit text).length cs with h | h
  · exact ⟨[text], by unfold chunk_text; rw [if_pos (by omega)]⟩
  · exact ⟨_, (chunk_text_words_eq_windows text cs ov hov h).2⟩

theorem chunk_text_total_int (text : String) (cs ov : Int) (hov0 : 0 ≤ ov)
    (hov : ov < cs) : ∃ l, chunk_text text cs ov = some l := by
  lift cs to Nat using (by omega)
  lift ov to Nat using hov0
  exact chunk_text_total text cs ov (by exact_mod_cast hov)

/-! ## Claim theorems -/

/-- C6: for every text whose word count is at most `chunk_size`,
`chunk_text` returns exactly one chunk, and that chunk is the input text
itself (no overlap is applied). -/
theorem chunk_short_text_single_chunk (text : String) (chunk_size overlap : Int)
    (h : ((pySplit text).length : Int) ≤ chunk_size) :
    chunk_text text chunk_size overlap = some [text] := by
  unfold chunk_text
  rw [if_pos h]

theorem chunk_short_text_single_chunk_witness :
    ((pySplit "mild persistent headache").length : Int) ≤ 400 ∧
    chunk_text "mild persistent headache" 400 50 =
      some ["mild persistent headache"] :=
  ⟨by decide, chunk_short_text_single_chunk "mild persistent headache" 400 50
    (by decide)⟩

/-- C2 counterexample: with `chunk_size = 4`, `overlap = 2` (a valid overlap
`< chunk_size`) on a 7-word text (word count `> chunk_size`), `chunk_text`
produces the chunks `"a b c d" / "c d e f" / "e f g" / "g"`, and the last
two consecutive chunks do not share exactly `overlap = 2` words at their
boundary: the final chunk has only one word. -/
theorem chunk_boundary_claim_counterexample :
    chunk_text "a b c d e f g" 4 2 =
      some ["a b c d", "c d e f", "e f g", "g"] ∧
    ¬ List.Chain'
        (fun a b : String =>
          (pySplit a).drop ((pySplit a).length - 2) = (pySplit b).take 2)
        ["a b c d", "c d e f", "e f g", "g"] := by
  constructor
  · decide
  · simp only [List.chain'_cons, List.chain'_singleton, and_true]
    decide

/-- C2 (amended): for every text with word count `> chunk_size` and every
`overlap < chunk_size`, `chunk_text` terminates, and on the word windows of
its chunks: every two consecutive chunks share exactly
`min overlap (length of the later chunk)` words at the boundary (this is
exactly `overlap` whenever the later chunk has at least `overlap` words —
the final chunk may be shorter), and concatenating the chunks after dropping
every chunk-after-the-first's leading `overlap` words reconstructs the
original word sequence of the text. -/
theorem chunk_boundary_amended (text : String) (cs ov : Nat) (hov : ov < cs)
    (hn : cs < (pySplit text).length) :
    ∃ rest,
      chunk_text_words text (cs : Int) (ov : Int) =
        some (((pySplit text).take cs) :: rest) ∧
      chunk_text text (cs : Int) (ov : Int) =
        some ((((pySplit text).take cs) :: rest).map (String.intercalate " ")) ∧
      List.Chain'
        (fun a b => a.drop (a.length - min ov b.length) = b.take (min ov b.length))
        (((pySplit text).take cs) :: rest) ∧
      (pySplit text).take cs ++ (rest.map (List.drop ov)).flatten =
        pySplit text := by
  obtain ⟨hw, hc⟩ := chunk_text_words_eq_windows text cs ov hov hn
  obtain ⟨t, ht, hrec⟩ := windows_reconstruct (pySplit text) cs ov hov
  refine ⟨t, ?_, ?_, ?_, hrec⟩
  · rw [hw, ht]
  · rw [hc, ht]
  · have hch := windows_chain (pySplit text) cs ov hov 0
    rwa [ht] at hch

theorem chunk_boundary_amended_witness :
    ∃ rest,
      chunk_text_words "a b c d e f g" ((4 : Nat) : Int) ((2 : Nat) : Int) =
        some (((pySplit "a b c d e f g").take 4) :: rest) ∧
      chunk_text "a b c d e f g" ((4 : Nat) : Int) ((2 : Nat) : Int) =
        some ((((pySplit "a b c d e f g").take 4) :: rest).map
          (String.intercalate " ")) ∧
      List.Chain'
        (fun a b => a.drop (a.length - min 2 b.length) = b.take (min 2 b.length))
        (((pySplit "a b c d e f g").take 4) :: rest) ∧
      (pySplit "a b c d e f g").take 4 ++ (rest.map (List.drop 2)).flatten =
        pySplit "a b c d e f g" :=
  chunk_boundary_amended "a b c d e f g" 4 2 (by decide) (by decide)

/-- C3: contrary to the claim, `chunk_text` contains no guard at all for
`overlap ≥ chunk_size` — the code comment "Prevent infinite loop" guards
only the case `start ≥ len(words)` — and the call fails to terminate rather
than raising an invalid-argument error.  On the 3-word text with
`chunk_size = overlap = 2` the loop re-appends the window starting at 0
forever: for every amount of fuel the embedded loop is still unfinished, so
`chunk_text` has no result. -/
theorem chunk_overlap_guard_missing :
    chunk_text "a b c" 2 2 = none ∧
    ∀ (fuel : Nat) (acc : List (List String)),
      chunkLoop (pySplit "a b c") 2 2 fuel 0 acc = none := by
  have hws : pySplit "a b c" = ["a", "b", "c"] := by decide
  have hloop : ∀ (fuel : Nat) (acc : List (List String)),
      chunkLoop ["a", "b", "c"] 2 2 fuel 0 acc = none := by
    intro fuel
    induction fuel with
    | zero => intro acc; rfl
    | succ f ih =>
      intro acc
      simp only [chunkLoop]
      norm_num
      exact ih _
  constructor
  · unfold chunk_text
    rw [hws, if_neg (by decide)]
    rw [hloop]
    rfl
  · rw [hws]
    exact hloop

/-- C4 counterexample: a row whose `summary` cell is blank (`pandas` reads a
blank CSV cell as `NaN`) is not treated as an empty summary —
`create_chunks_from_csv` fails with a `TypeError` (string + float
concatenation) instead of chunking successfully. -/
theorem blank_summary_counterexample :
    create_chunks_from_csv
      [{ id := 0, title := "Influenza", also_called := none,
         summary := none, url := "u" }] =
      Except.error "TypeError: can only concatenate str (not float) to str" := by
  rfl

/-- C4 (amended): an absent or blank `also_called` is treated as the empty
string, and for rows whose `summary` is present the combined text is
`"{title}. "` plus the optional `"Also known as: {alt_names}. "` prefix plus
the summary, and chunking the combined text at `chunk_size=400, overlap=50`
succeeds; but `summary` itself must be present — a blank summary raises a
`TypeError` (see the counterexample). -/
theorem blank_fields_amended (row : Row) (s : String)
    (hs : row.summary = some s) :
    (row.also_called = none →
      row_full_text row = Except.ok (row.title ++ ". " ++ s)) ∧
    (row.also_called = some "" →
      row_full_text row = Except.ok (row.title ++ ". " ++ s)) ∧
    (∀ v, row.also_called = some v → v ≠ "" →
      row_full_text row =
        Except.ok (row.title ++ ". " ++ ("Also known as: " ++ v ++ ". ") ++ s)) ∧
    (∀ t, row_full_text row = Except.ok t →
      ∃ chunks, chunk_text t 400 50 = some chunks) := by
  refine ⟨?_, ?_, ?_, ?_⟩
  · intro hac
    unfold row_full_text
    rw [hac, hs]
    simp
  · intro hac
    unfold row_full_text
    rw [hac, hs]
    simp
  · intro v hac hv
    unfold row_full_text
    rw [hac, hs]
    simp [hv]
  · intro t _
    exact chunk_text_total_int t 400 50 (by omega) (by omega)

theorem blank_fields_amended_witness :
    (sampleRow.also_called = none →
      row_full_text sampleRow = Except.ok (sampleRow.title ++ ". " ++
        "A viral infection of the nose and throat.")) ∧
    (sampleRow.also_called = some "" →
      row_full_text sampleRow = Except.ok (sampleRow.title ++ ". " ++
        "A viral infection of the nose and throat.")) ∧
    (∀ v, sampleRow.also_called = some v → v ≠ "" →
      row_full_text sampleRow = Except.ok (sampleRow.title ++ ". " ++
        ("Also known as: " ++ v ++ ". ") ++
        "A viral infection of the nose and throat.")) ∧
    (∀ t, row_full_text sampleRow = Except.ok t →
      ∃ chunks, chunk_text t 400 50 = some chunks) :=
  blank_fields_amended sampleRow "A viral infection of the nose and throat." rfl

theorem emit_chunks_map_chunk_id (title : String) (source_id : Int)
    (url : String) :
    ∀ (cs : List String) (cid : Nat),
      (emit_chunks title source_id url cs cid).map ChunkRec.chunk_id =
        List.range' cid cs.length := by
  intro cs
  induction cs with
  | nil => intro cid; rfl
  | cons c rest ih =>
    intro cid
    simp only [emit_chunks, List.map_cons, List.length_cons]
    rw [List.range'_succ, ih]

theorem emit_chunks_length (title : String) (source_id : Int) (url : String)
    (cs : List String) (cid : Nat) :
    (emit_chunks title source_id url cs cid).length = cs.length := by
  have h := congrArg List.length (emit_chunks_map_chunk_id title source_id url cs cid)
  rwa [List.length_map, List.length_range'] at h

theorem create_chunks_go_ids :
    ∀ (rows : List Row) (cid : Nat) (out : List ChunkRec),
      create_chunks_go rows cid = Except.ok out →
      out.map ChunkRec.chunk_id = List.range' cid out.length := by
  intro rows
  induction rows with
  | nil =>
    intro cid out h
    simp only [create_chunks_go] at h
    injection h with h1
    subst h1
    rfl
  | cons row rest ih =>
    intro cid out h
    simp only [create_chunks_go] at h
    cases hft : row_full_text row with
    | error e => rw [hft] at h; exact Except.noConfusion h
    | ok ft =>
      rw [hft] at h
      dsimp only at h
      cases hct : chunk_text ft 400 50 with
      | none => rw [hct] at h; exact Except.noConfusion h
      | some chunks =>
        rw [hct] at h
        dsimp only at h
        cases hgo : create_chunks_go rest (cid + chunks.length) with
        | error e => rw [hgo] at h; exact Except.noConfusion h
        | ok more =>
          rw [hgo] at h
          dsimp only at h
          injection h with h1
          subst h1
          rw [List.map_append, emit_chunks_map_chunk_id,
            ih (cid + chunks.length) more hgo,
            List.length_append, emit_chunks_length]
          have happ := List.range'_append cid chunks.length more.length 1
          rw [one_mul] at happ
          rw [happ, Nat.add_comm more.length chunks.length]

/-- C5: over any corpus, `create_chunks_from_csv` assigns `chunk_id` values
forming the dense zero-based range `[0, totalChunks)` in corpus-iteration
order, so each chunk's `chunk_id` equals its ordinal row position in the
emitted chunk table. -/
theorem create_chunks_dense_ids (rows : List Row) (out : List ChunkRec)
    (h : create_chunks_from_csv rows = Except.ok out) :
    out.map ChunkRec.chunk_id = List.range out.length ∧
    ∀ (i : Nat), i < out.length → ∀ (hi : i < out.length), (out[i]).chunk_id = i := by
  have hmap := create_chunks_go_ids rows 0 out h
  rw [← List.range_eq_range'] at hmap
  refine ⟨hmap, ?_⟩
  intro i hi _
  have hi1 : i < (out.map ChunkRec.chunk_id).length := by simpa using hi
  have hget := List.getElem_of_eq hmap hi1
  rw [List.getElem_map, List.getElem_range] at hget
  exact hget

theorem create_chunks_dense_ids_witness :
    create_chunks_from_csv sampleRows = Except.ok sampleOut ∧
    sampleOut.map ChunkRec.chunk_id = List.range sampleOut.length :=
  ⟨rfl, (create_chunks_dense_ids sampleRows sampleOut rfl).1⟩

theorem insertPair_length (a : Int × Nat) (l : List (Int × Nat)) :
    (insertPair a l).length = l.length + 1 := by
  induction l with
  | nil => rfl
  | cons b bs ih =>
    simp only [insertPair]
    split
    · simp
    · simp [ih]

theorem sortPairs_length (l : List (Int × Nat)) :
    (sortPairs l).length = l.length := by
  induction l with
  | nil => rfl
  | cons a as ih => simp [sortPairs, insertPair_length, ih]

theorem search_ok_length (idx : IndexFlatL2) (q : List Int) (k : Int)
    (hk : 0 < k) :
    ∃ pairs, idx.search q k = Except.ok pairs ∧
      pairs.length = min k.toNat idx.xb.length := by
  unfold IndexFlatL2.search
  rw [if_neg (by omega)]
  refine ⟨_, rfl, ?_⟩
  rw [List.length_take, sortPairs_length, List.length_map, List.enum_length]
  omega

/-- C1: for every query vector and every `top_k`, `retrieve` over an aligned
store returns at most `min(top_k, chunkCount)` results (in fact exactly that
many); on an empty index it returns the empty sequence rather than an
error; and for `top_k ≤ 0` it fails with the invalid-argument error. -/
theorem retrieve_topk_bounds (r : MedlineRetriever) (qvec : List Int)
    (k : Int) (halign : r.chunks_df.length = r.index.xb.length) :
    (k ≤ 0 → r.retrieve qvec k =
      Except.error "InvalidArgumentError: topK must be positive") ∧
    (0 < k → ∃ results, r.retrieve qvec k = Except.ok results ∧
      results.length = min k.toNat r.chunks_df.length ∧
      (r.index.xb.length = 0 → results = [])) := by
  constructor
  · intro hk
    unfold MedlineRetriever.retrieve IndexFlatL2.search
    rw [if_pos hk]
    rfl
  · intro hk
    obtain ⟨pairs, hp, hlen⟩ := search_ok_length r.index qvec k hk
    have hr : r.retrieve qvec k = Except.ok (pairs.enum.map fun ip =>
        let chunk_info := r.chunks_df.getD ip.2.2 emptyChunkRec
        { rank := ip.1 + 1, score := ip.2.1, title := chunk_info.title,
          text := chunk_info.chunk_text, url := chunk_info.url,
          chunk_id := chunk_info.chunk_id }) := by
      unfold MedlineRetriever.retrieve
      rw [hp]
      rfl
    refine ⟨_, hr, ?_, ?_⟩
    · rw [List.length_map, List.enum_length, hlen, halign]
    · intro h0
      have hlen0 : pairs.length = 0 := by omega
      have hnil : pairs = [] := List.length_eq_zero.mp hlen0
      subst hnil
      rfl

theorem retrieve_topk_bounds_witness :
    sampleRetriever.retrieve [0, 0] (-1) =
      Except.error "InvalidArgumentError: topK must be positive" ∧
    ∃ results, sampleRetriever.retrieve [0, 0] 5 = Except.ok results ∧
      results.length = min (Int.toNat 5) sampleRetriever.chunks_df.length ∧
      (sampleRetriever.index.xb.length = 0 → results = []) :=
  ⟨(retrieve_topk_bounds sampleRetriever [0, 0] (-1) rfl).1 (by decide),
   (retrieve_topk_bounds sampleRetriever [0, 0] 5 rfl).2 (by decide)⟩

theorem flatten_length_const {xb : List (List Int)} {d : Nat}
    (h : ∀ v ∈ xb, v.length = d) : xb.flatten.length = xb.length * d := by
  induction xb with
  | nil => simp
  | cons v rest ih =>
    simp only [List.flatten_cons, List.length_append, List.length_cons]
    rw [h v (by simp), ih (fun w hw => h w (by simp [hw]))]
    ring

theorem unflatten_flatten {xb : List (List Int)} {d : Nat}
    (h : ∀ v ∈ xb, v.length = d) :
    unflatten xb.length d xb.flatten = xb := by
  induction xb with
  | nil => rfl
  | cons v rest ih =>
    simp only [List.length_cons, List.flatten_cons, unflatten]
    have hv : v.length = d := h v (by simp)
    have h1 : (v ++ rest.flatten).take d = v := by
      rw [← hv]; exact List.take_left v rest.flatten
    have h2 : (v ++ rest.flatten).drop d = rest.flatten := by
      rw [← hv]; exact List.drop_left v rest.flatten
    rw [h1, h2, ih (fun w hw => h w (by simp [hw]))]

/-- C7: saving a flat index and loading it back yields an index whose
`search` output (distances and ordinal positions, in order) is identical to
that of the pre-save index, for every query vector and every `k` up to the
index size. -/
theorem index_save_load_roundtrip (idx : IndexFlatL2) (q : List Int)
    (k : Int) (hd : ∀ v ∈ idx.xb, v.length = idx.d)
    (_hk : k ≤ (idx.xb.length : Int)) :
    read_index (write_index idx) = some idx ∧
    (read_index (write_index idx)).map (fun idx2 => idx2.search q k) =
      some (idx.search q k) := by
  have hread : read_index (write_index idx) = some idx := by
    unfold write_index read_index
    dsimp only
    have hcond : 0 ≤ (idx.d : Int) ∧ 0 ≤ (idx.xb.length : Int) ∧
        idx.xb.flatten.length =
          ((idx.xb.length : Int)).toNat * ((idx.d : Int)).toNat := by
      refine ⟨by omega, by omega, ?_⟩
      rw [Int.toNat_natCast, Int.toNat_natCast]
      exact flatten_length_const hd
    rw [if_pos hcond]
    simp only [Int.toNat_natCast]
    rw [unflatten_flatten hd]
  refine ⟨hread, ?_⟩
  rw [hread]
  rfl

theorem index_save_load_roundtrip_witness :
    read_index (write_index sampleIndex) = some sampleIndex ∧
    (read_index (write_index sampleIndex)).map
      (fun idx2 => idx2.search [1, 1] 2) =
      some (sampleIndex.search [1, 1] 2) :=
  index_save_load_roundtrip sampleIndex [1, 1] 2 (by decide) (by decide)

theorem intercalate_go_append (s : String) :
    ∀ (l : List String) (a x : String),
      String.intercalate.go (a ++ x) s l = a ++ String.intercalate.go x s l := by
  intro l
  induction l with
  | nil => intro a x; rfl
  | cons y ys ih =>
    intro a x
    simp only [String.intercalate.go]
    rw [String.append_assoc a x s, String.append_assoc a (x ++ s) y]
    exact ih a ((x ++ s) ++ y)

/-- C9: `format_context` returns exactly the concatenation, in rank order,
of one `"[Source: {title}]\n{text}\n"` block per result, joined by the
`"\n---\n"` separator line, with no deduplication of repeated titles — it
coincides with the spec-side recursive formatter, which emits one labelled
block per result unconditionally. -/
theorem format_context_matches_spec (results : List RetrievalResult) :
    format_context results = formatContextSpec results := by
  induction results with
  | nil => rfl
  | cons r rest ih =>
    cases rest with
    | nil => rfl
    | cons r2 rest2 =>
      calc format_context (r :: r2 :: rest2)
          = String.intercalate.go
              ((("[Source: " ++ r.title ++ "]\n" ++ r.text ++ "\n") ++ "\n---\n") ++
                ("[Source: " ++ r2.title ++ "]\n" ++ r2.text ++ "\n"))
              "\n---\n"
              (rest2.map fun result =>
                "[Source: " ++ result.title ++ "]\n" ++ result.text ++ "\n") := rfl
        _ = (("[Source: " ++ r.title ++ "]\n" ++ r.text ++ "\n") ++ "\n---\n") ++
              String.intercalate.go
                ("[Source: " ++ r2.title ++ "]\n" ++ r2.text ++ "\n")
                "\n---\n"
                (rest2.map fun result =>
                  "[Source: " ++ result.title ++ "]\n" ++ result.text ++ "\n") :=
            intercalate_go_append "\n---\n" _ _ _
        _ = (("[Source: " ++ r.title ++ "]\n" ++ r.text ++ "\n") ++ "\n---\n") ++
              format_context (r2 :: rest2) := rfl
        _ = (("[Source: " ++ r.title ++ "]\n" ++ r.text ++ "\n") ++ "\n---\n") ++
              formatContextSpec (r2 :: rest2) := by rw [ih]
        _ = formatContextSpec (r :: r2 :: rest2) := rfl

theorem generate_diagnosis_calls (p : RAGPipeline) (user_symptoms : String) :
    ∃ result, p.generate_diagnosis user_symptoms =
      (Except.ok result, [ExtCall.retrieval, ExtCall.generation]) := by
  obtain ⟨pairs, hp, _⟩ :=
    search_ok_length p.retriever.index (p.encode user_symptoms) 3 (by omega)
  have hr : p.retriever.retrieve (p.encode user_symptoms) 3 =
      Except.ok (pairs.enum.map fun ip =>
        let chunk_info := p.retriever.chunks_df.getD ip.2.2 emptyChunkRec
        { rank := ip.1 + 1, score := ip.2.1, title := chunk_info.title,
          text := chunk_info.chunk_text, url := chunk_info.url,
          chunk_id := chunk_info.chunk_id }) := by
    unfold MedlineRetriever.retrieve
    rw [hp]
    rfl
  unfold RAGPipeline.generate_diagnosis
  rw [hr]
  exact ⟨_, rfl⟩

theorem process_message_complete_stage (p : RAGPipeline)
    (m : ConversationManager) (input : String) (h : m.stage = "complete") :
    ConversationManager.process_message p m input =
      (m.add_user_message input,
        Except.ok (some (PMResponse.complete closingNotice)), []) := by
  unfold ConversationManager.process_message
  dsimp only
  have h1 : (m.add_user_message input).stage = "complete" := h
  rw [h1, if_neg (by decide), if_pos rfl]

theorem process_message_history_append (p : RAGPipeline)
    (m : ConversationManager) (input : String) :
    ∃ tail, (ConversationManager.process_message p m input).1.conversation_history =
      m.conversation_history ++ tail := by
  unfold ConversationManager.process_message
  dsimp only
  by_cases h1 : (m.add_user_message input).stage = "initial"
  · rw [if_pos h1]
    cases hgen : p.generate_diagnosis input with
    | mk res calls =>
      cases res with
      | error e =>
        exact ⟨[{ role := "user", content := input }], rfl⟩
      | ok result =>
        refine ⟨[{ role := "user", content := input },
          { role := "assistant", content := result.diagnosis }], ?_⟩
        show (m.conversation_history ++ [{ role := "user", content := input }]) ++
            [{ role := "assistant", content := result.diagnosis }] =
          m.conversation_history ++ _
        rw [List.append_assoc]
        rfl
  · rw [if_neg h1]
    by_cases h2 : (m.add_user_message input).stage = "complete"
    · rw [if_pos h2]
      exact ⟨[{ role := "user", content := input }], rfl⟩
    · rw [if_neg h2]
      exact ⟨[{ role := "user", content := input }], rfl⟩

/-- C8: in a fresh session, the first user message triggers exactly one
retrieval-and-generation cycle (the external-call log of the call is exactly
`[retrieval, generation]`), produces a diagnosis response, and moves the
session to the `"complete"` stage; a subsequent message processed in the
`"complete"` stage returns the fixed closing notice with an empty
external-call log (no further retrieval or generation). -/
theorem session_single_cycle (p : RAGPipeline) (input input2 : String)
    (m1 : ConversationManager) (resp : Except String (Option PMResponse))
    (calls : List ExtCall)
    (h : ConversationManager.process_message p ConversationManager.new input =
      (m1, resp, calls)) :
    m1.stage = "complete" ∧
    calls = [ExtCall.retrieval, ExtCall.generation] ∧
    (∃ c s, resp = Except.ok (some (PMResponse.diagnosis c s))) ∧
    ConversationManager.process_message p m1 input2 =
      (m1.add_user_message input2,
        Except.ok (some (PMResponse.complete closingNotice)), []) := by
  obtain ⟨result, hgen⟩ := generate_diagnosis_calls p input
  have hproc : ConversationManager.process_message p ConversationManager.new input =
      ({ conversation_history := [{ role := "user", content := input },
           { role := "assistant", content := result.diagnosis }],
         stage := "complete" },
       Except.ok (some (PMResponse.diagnosis result.diagnosis result.sources)),
       [ExtCall.retrieval, ExtCall.generation]) := by
    unfold ConversationManager.process_message
    dsimp only
    have hcond : (ConversationManager.new.add_user_message input).stage =
        "initial" := rfl
    rw [if_pos hcond, hgen]
    rfl
  rw [hproc] at h
  injection h with hm h'
  injection h' with hr hc
  subst hm
  subst hr
  subst hc
  refine ⟨rfl, rfl, ⟨result.diagnosis, result.sources, rfl⟩, ?_⟩
  exact process_message_complete_stage p _ input2 rfl

theorem session_single_cycle_witness :
    sampleCompleteManager.stage = "complete" ∧
    ([ExtCall.retrieval, ExtCall.generation] : List ExtCall) =
      [ExtCall.retrieval, ExtCall.generation] ∧
    (∃ c s, (Except.ok (some (PMResponse.diagnosis "rest and fluids"
        sampleSources)) : Except String (Option PMResponse)) =
      Except.ok (some (PMResponse.diagnosis c s))) ∧
    ConversationManager.process_message samplePipeline
        sampleCompleteManager "more" =
      (sampleCompleteManager.add_user_message "more",
        Except.ok (some (PMResponse.complete closingNotice)), []) :=
  session_single_cycle samplePipeline "hi" "more" sampleCompleteManager
    (Except.ok (some (PMResponse.diagnosis "rest and fluids" sampleSources)))
    [ExtCall.retrieval, ExtCall.generation] (by rfl)

/-- C10: processing a message in the `"complete"` stage appends exactly the
incoming user message to the conversation history (in particular the closing
notice is not appended as an assistant message), leaves the stage unchanged
at `"complete"`; and in every stage the history of the resulting state is
the old history with a suffix appended — never reordered or truncated. -/
theorem process_message_complete_frame (p : RAGPipeline)
    (m : ConversationManager) (input : String) :
    (m.stage = "complete" →
      ConversationManager.process_message p m input =
        (m.add_user_message input,
          Except.ok (some (PMResponse.complete closingNotice)), []) ∧
      (m.add_user_message input).stage = "complete" ∧
      (m.add_user_message input).conversation_history =
        m.conversation_history ++ [{ role := "user", content := input }]) ∧
    (∃ tail,
      (ConversationManager.process_message p m input).1.conversation_history =
        m.conversation_history ++ tail) :=
  ⟨fun h => ⟨process_message_complete_stage p m input h, h, rfl⟩,
   process_message_history_append p m input⟩

theorem process_message_complete_frame_witness :
    ConversationManager.process_message samplePipeline
        { conversation_history := [], stage := "complete" } "again" =
      (({ conversation_history := [], stage := "complete" } :
          ConversationManager).add_user_message "again",
        Except.ok (some (PMResponse.complete closingNotice)), []) :=
  ((process_message_complete_frame samplePipeline
      { conversation_history := [], stage := "complete" } "again").1 rfl).1
